import Mathlib

/-!
Shallow embedding of the URL-shortener backend (`src/index.js`) and proofs
about its handlers.  Every `pool.query` of the source is modelled as one
atomic operation on the `links` table (a list of rows); each Express handler
is the sequential composition of its queries.  Interleavings of concurrent
requests are expressed by composing the individual query operations in the
order the scheduler runs them.
-/

namespace ShortLink

/-- A JSON value as it can appear in a request-body field
(`express.json()` parses the body of `POST /api/links`, `src/index.js:22`). -/
inductive JVal where
  | jstr (s : String)
  | jnum (n : Int)
  | jbool (b : Bool)
  | jnull
  deriving DecidableEq

/-- JavaScript truthiness of a JSON value (the `!target_url` test,
`src/index.js:51`). -/
def jsTruthy : JVal → Bool
  | .jstr s => !(s == "")
  | .jnum n => !(n == 0)
  | .jbool b => b
  | .jnull => false

/-- One row of the `links` table (columns as selected throughout
`src/index.js`); timestamps are abstract clock values (`NOW()` is passed in
as an argument to each operation that uses it). -/
structure Link where
  id : Nat
  code : String
  target_url : String
  clicks : Nat
  last_clicked_at : Option Nat
  created_at : Nat
  updated_at : Nat
  deriving DecidableEq

/-- The `links` table. -/
abbrev Store := List Link

/-- `str.startsWith(p)` of JavaScript (`target_url.startsWith('http')`,
`src/index.js:51`), on code points. -/
def strStartsWith (t p : String) : Bool :=
  p.data.isPrefixOf t.data

/-- One character of the regex class `[a-zA-Z0-9]` (`src/index.js:56`). -/
def isAlnumChar (c : Char) : Bool :=
  ('a' ≤ c && c ≤ 'z') || ('A' ≤ c && c ≤ 'Z') || ('0' ≤ c && c ≤ '9')

/-- `/^[a-zA-Z0-9]+$/.test(code)` (`src/index.js:56`): at least one
character, all alphanumeric. -/
def regexAlnumTest (code : String) : Bool :=
  !code.data.isEmpty && code.data.all isAlnumChar

/-- The code-format guard of `POST /api/links` (`src/index.js:56`): the code
passes iff not (`code.length > 8 || !/^[a-zA-Z0-9]+$/.test(code)`). -/
def codeFormatOk (code : String) : Bool :=
  !(decide (code.length > 8)) && regexAlnumTest code

/-- Lowercase hex digit of a nibble, as produced by Node's
`Buffer.toString('hex')` (`src/index.js:37`). -/
def hexCharLower (n : Nat) : Char :=
  if n < 10 then Char.ofNat (48 + n) else Char.ofNat (87 + n)

/-- ASCII uppercasing of one character (`.toUpperCase()`,
`src/index.js:37`). -/
def upperChar (c : Char) : Char :=
  if 'a' ≤ c ∧ c ≤ 'z' then Char.ofNat (c.toNat - 32) else c

/-- `generateShortCode` (`src/index.js:36-38`):
`crypto.randomBytes(3).toString('hex').toUpperCase().slice(0, 5)`.
The three random bytes are passed in as oracle arguments. -/
def generateShortCode (b0 b1 b2 : Fin 256) : String :=
  String.mk ((([b0.val / 16, b0.val % 16, b1.val / 16, b1.val % 16,
      b2.val / 16, b2.val % 16].map hexCharLower).map upperChar).take 5)

/-- Request body of `POST /api/links` (`src/index.js:50`).  `custom_code` is
modelled as an optional string (the claims only concern string or absent
values). -/
structure CreateBody where
  target_url : Option JVal
  custom_code : Option String
  deriving DecidableEq

/-- `const code = custom_code || generateShortCode()` (`src/index.js:55`):
an absent or empty (falsy) custom code falls back to the generated
candidate. -/
def chooseCode (custom : Option String) (b0 b1 b2 : Fin 256) : String :=
  match custom with
  | some c => if c == "" then generateShortCode b0 b1 b2 else c
  | none => generateShortCode b0 b1 b2

/-- The target-url guard of `POST /api/links` (`src/index.js:51`):
`!target_url || typeof target_url !== 'string' || !target_url.startsWith('http')`
negated. -/
def targetUrlOk (v : Option JVal) : Bool :=
  match v with
  | some (.jstr t) => jsTruthy (.jstr t) && strStartsWith t "http"
  | some _ => false
  | none => false

/-- `SELECT id FROM links WHERE code = $1` (`src/index.js:62-63`): the id of
the first row whose code matches, if any.  One atomic query. -/
def checkCode (code : String) (s : Store) : Option Nat :=
  (s.find? (fun l => l.code == code)).map (fun l => l.id)

/-- `INSERT INTO links (code, target_url, created_at, updated_at) VALUES
($1, $2, NOW(), NOW()) RETURNING ...` (`src/index.js:69-74`).  `clicks` and
`last_clicked_at` take their column defaults (0 and NULL per the data
model).  One atomic query. -/
def insertLink (code target : String) (now newId : Nat) (s : Store) :
    Store × Link :=
  let l : Link := { id := newId, code := code, target_url := target,
                    clicks := 0, last_clicked_at := none,
                    created_at := now, updated_at := now }
  (s ++ [l], l)

/-- Outcome of `POST /api/links` (`src/index.js:49-87`). -/
inductive CreateResult where
  | invalidUrl
  | invalidCode
  | conflict
  | created (l : Link)
  deriving DecidableEq

/-- Whether a create outcome is the 201 success. -/
def isCreated : CreateResult → Bool
  | .created _ => true
  | _ => false

/-- The `POST /api/links` handler (`src/index.js:49-87`) run without
interleaving: validate `target_url` (400), choose the code (custom or
generated from the oracle bytes), validate its format (400), then the
existence check (409 on a hit) followed by the insert (201), the check and
the insert being two separate queries. -/
def createLink (body : CreateBody) (b0 b1 b2 : Fin 256) (now newId : Nat)
    (s : Store) : CreateResult × Store :=
  match body.target_url with
  | some (.jstr t) =>
    if t == "" || !strStartsWith t "http" then (.invalidUrl, s)
    else
      let code := chooseCode body.custom_code b0 b1 b2
      if !codeFormatOk code then (.invalidCode, s)
      else
        match checkCode code s with
        | some _ => (.conflict, s)
        | none =>
          let r := insertLink code t now newId s
          (.created r.2, r.1)
  | _ => (.invalidUrl, s)

/-- Outcome of `GET /api/links/:code` (`src/index.js:123-149`). -/
inductive GetResult where
  | notFound
  | found (l : Link)
  deriving DecidableEq

/-- `GET /api/links/:code` (`src/index.js:123-149`):
`SELECT ... FROM links WHERE code = $1`, 404 when no row matches. -/
def getLink (code : String) (s : Store) : GetResult :=
  match s.find? (fun l => l.code == code) with
  | some l => .found l
  | none => .notFound

/-- The UPDATE of the redirect handler (`src/index.js:173-179`):
`UPDATE links SET clicks = clicks, last_clicked_at = NOW(), updated_at =
NOW() WHERE code = $1 RETURNING target_url`.  The SET clause assigns
`clicks` to itself, exactly as in the source.  One atomic query. -/
def redirectUpdate (code : String) (now : Nat) (s : Store) :
    Store × Option String :=
  (s.map (fun l => if l.code == code then
      { l with clicks := l.clicks, last_clicked_at := some now,
               updated_at := now }
    else l),
   (s.find? (fun l => l.code == code)).map (fun l => l.target_url))

/-- Outcome of `GET /:code` (`src/index.js:169-199`): 404, or a 302 to the
target (the no-cache headers carry no state and are not modelled). -/
inductive RedirectResult where
  | notFound
  | redirect (target : String)
  deriving DecidableEq

/-- The `GET /:code` redirect handler (`src/index.js:169-199`): run the
UPDATE, 404 when it touched no row, otherwise 302 to the returned
`target_url`. -/
def redirectHandler (code : String) (now : Nat) (s : Store) :
    RedirectResult × Store :=
  let r := redirectUpdate code now s
  match r.2 with
  | none => (.notFound, r.1)
  | some t => (.redirect t, r.1)

/-- `SELECT clicks FROM links WHERE code = $1` (`src/index.js:208-209`).
One atomic query, the read half of `POST /api/increment/:code`. -/
def selectClicks (code : String) (s : Store) : Option Nat :=
  (s.find? (fun l => l.code == code)).map (fun l => l.clicks)

/-- `UPDATE links SET clicks = $1, last_clicked_at = NOW(), updated_at =
NOW() WHERE code = $2 RETURNING id` (`src/index.js:217-223`).  One atomic
query, the write half of `POST /api/increment/:code`; the new counter value
`v` is computed by the caller in application memory. -/
def updateClicksTo (code : String) (v : Nat) (now : Nat) (s : Store) :
    Store × Option Nat :=
  (s.map (fun l => if l.code == code then
      { l with clicks := v, last_clicked_at := some now, updated_at := now }
    else l),
   (s.find? (fun l => l.code == code)).map (fun l => l.id))

/-- `POST /api/increment/:code` (`src/index.js:203-233`) run without
interleaving: read the counter, then write back the read value plus one. -/
def incrementHandler (code : String) (now : Nat) (s : Store) :
    Option Nat × Store :=
  match selectClicks code s with
  | none => (none, s)
  | some c =>
    let r := updateClicksTo code (c + 1) now s
    (some (c + 1), r.1)

/-- The ASCII uppercase-to-lowercase table. -/
def lowerPairs : List (Char × Char) :=
  [('A', 'a'), ('B', 'b'), ('C', 'c'), ('D', 'd'), ('E', 'e'), ('F', 'f'),
   ('G', 'g'), ('H', 'h'), ('I', 'i'), ('J', 'j'), ('K', 'k'), ('L', 'l'),
   ('M', 'm'), ('N', 'n'), ('O', 'o'), ('P', 'p'), ('Q', 'q'), ('R', 'r'),
   ('S', 's'), ('T', 't'), ('U', 'u'), ('V', 'v'), ('W', 'w'), ('X', 'x'),
   ('Y', 'y'), ('Z', 'z')]

/-- ASCII lowercasing of one character, as performed both by SQL `LOWER`
and by JavaScript `toLowerCase` on the ASCII range (`src/index.js:103` and
`src/index.js:106`): uppercase letters map through the table, everything
else is unchanged. -/
def lowerChar (c : Char) : Char :=
  ((lowerPairs.find? (fun p => p.1 == c)).map Prod.snd).getD c

/-- A string lowercased, as a character list. -/
def lowerStr (t : String) : List Char := t.data.map lowerChar

/-- SQL `LIKE` pattern matching with Postgres's default escape character:
`\\` escapes the following pattern character, which then matches only
itself (even when it is `%`, `_` or `\\`); `%` matches any sequence of
characters (the rest of the pattern must match some suffix of the
subject); `_` matches exactly one character; any other pattern character
matches itself.  A pattern ending in a lone `\\` is an error in Postgres,
modelled as matching nothing; it cannot arise from the patterns the
source builds, which always end in an appended `%` (a term-final `\\`
escapes that final `%`, making it a literal percent sign, rather than
erroring). -/
def likeMatch : List Char → List Char → Bool
  | [], s => s.isEmpty
  | pc :: ps, s =>
    if pc = '\\' then
      match ps, s with
      | [], _ => false
      | _ :: _, [] => false
      | pe :: ps2, c :: s2 => pe == c && likeMatch ps2 s2
    else if pc = '%' then
      s.tails.any (fun s2 => likeMatch ps s2)
    else
      match s with
      | [] => false
      | c :: s2 =>
        if pc = '_' then likeMatch ps s2
        else pc == c && likeMatch ps s2

/-- The LIKE pattern the handler builds from the search term:
`'%' + search.toLowerCase() + '%'` (`src/index.js:106`). -/
def searchPattern (q : String) : List Char :=
  '%' :: lowerStr q ++ ['%']

/-- The row filter of the search query (`src/index.js:103`):
`LOWER(code) LIKE $1 OR LOWER(target_url) LIKE $1`. -/
def rowMatches (q : String) (l : Link) : Bool :=
  likeMatch (searchPattern q) (lowerStr l.code) ||
    likeMatch (searchPattern q) (lowerStr l.target_url)

/-- The `ORDER BY created_at DESC` relation of `GET /api/links`
(`src/index.js:95` and `src/index.js:104`). -/
def createdDesc (a b : Link) : Prop := b.created_at ≤ a.created_at

instance : DecidableRel createdDesc :=
  fun a b => inferInstanceAs (Decidable (b.created_at ≤ a.created_at))

instance : IsTotal Link createdDesc :=
  ⟨fun a b => Nat.le_total b.created_at a.created_at⟩

instance : IsTrans Link createdDesc :=
  ⟨fun _ _ _ hab hbc => Nat.le_trans hbc hab⟩

/-- The `GET /api/links` handler (`src/index.js:90-120`): without a search
term (or with the empty, falsy, one — `if (search)`, `src/index.js:99`) the
whole table ordered by `created_at` descending; with a search term the rows
matching the case-insensitive LIKE filter, in the same order. -/
def listLinks (search : Option String) (s : Store) : List Link :=
  match search with
  | some q =>
    if q == "" then List.insertionSort createdDesc s
    else List.insertionSort createdDesc (s.filter (rowMatches q))
  | none => List.insertionSort createdDesc s

/-! Concrete fixtures used to evaluate the handlers. -/

/-- A stored link with code `abc` and no clicks yet. -/
def l0 : Link :=
  { id := 1, code := "abc", target_url := "http://example.com", clicks := 0,
    last_clicked_at := none, created_at := 1, updated_at := 1 }

/-- A stored link occupying the code `generateShortCode 0 0 0 = "00000"`. -/
def lColl : Link :=
  { id := 1, code := "00000", target_url := "http://c.example", clicks := 0,
    last_clicked_at := none, created_at := 1, updated_at := 1 }

/-- A stored link occupying the code `generateShortCode 171 205 0 = "ABCD0"`. -/
def lCollB : Link :=
  { id := 2, code := "ABCD0", target_url := "http://d.example", clicks := 3,
    last_clicked_at := some 2, created_at := 2, updated_at := 2 }

/-! Shared lemmas about the embedded operations. -/

/-- A value passing the target-url guard is a string that starts with
`http` and is nonempty. -/
theorem targetOk_shape {v : Option JVal} (h : targetUrlOk v = true) :
    ∃ t, v = some (JVal.jstr t) ∧ (t == "") = false ∧
      strStartsWith t "http" = true := by
  cases v with
  | none => simp [targetUrlOk] at h
  | some w =>
    cases w with
    | jstr t =>
      simp only [targetUrlOk, jsTruthy, Bool.and_eq_true,
        Bool.not_eq_true'] at h
      exact ⟨t, rfl, h.1, h.2⟩
    | jnum n => simp [targetUrlOk] at h
    | jbool b => simp [targetUrlOk] at h
    | jnull => simp [targetUrlOk] at h

/-- Uppercased hex digits are alphanumeric. -/
theorem hexUpper_alnum : ∀ m : Fin 16,
    isAlnumChar (upperChar (hexCharLower m.val)) = true := by decide

/-- Every generated candidate passes the code-format guard: it is five
characters drawn from `0-9A-F`. -/
theorem genCode_format (b0 b1 b2 : Fin 256) :
    codeFormatOk (generateShortCode b0 b1 b2) = true := by
  have hb0 := b0.isLt
  have hb1 := b1.isLt
  have hb2 := b2.isLt
  have a0 := hexUpper_alnum ⟨b0.val / 16, by omega⟩
  have a1 := hexUpper_alnum ⟨b0.val % 16, by omega⟩
  have a2 := hexUpper_alnum ⟨b1.val / 16, by omega⟩
  have a3 := hexUpper_alnum ⟨b1.val % 16, by omega⟩
  have a4 := hexUpper_alnum ⟨b2.val / 16, by omega⟩
  simp only [generateShortCode, codeFormatOk, regexAlnumTest, List.map,
    List.take, String.length] at a0 a1 a2 a3 a4 ⊢
  simp [a0, a1, a2, a3, a4]

/-- `find?` skips a block in which it finds nothing. -/
theorem find?_append_none {α : Type} {p : α → Bool} {l1 : List α}
    (h : l1.find? p = none) (l2 : List α) :
    (l1 ++ l2).find? p = l2.find? p := by
  induction l1 with
  | nil => rfl
  | cons a l ih =>
    rw [List.find?_cons] at h
    rw [List.cons_append, List.find?_cons]
    cases hpa : p a with
    | true => rw [hpa] at h; simp at h
    | false => rw [hpa] at h; exact ih h

/-- The empty LIKE pattern matches only the empty string. -/
theorem likeMatch_nil_iff (s : List Char) : likeMatch [] s = true ↔ s = [] := by
  cases s <;> simp [likeMatch]

/-- A pattern headed by `%` matches a string iff some split of the string
lets the rest of the pattern match the second part. -/
theorem likeMatch_percent_step (ps s : List Char) :
    likeMatch ('%' :: ps) s = s.tails.any (fun s2 => likeMatch ps s2) := by
  rw [likeMatch.eq_def]
  simp

/-- A pattern headed by `%` matches a string iff some split of the string
lets the rest of the pattern match the second part. -/
theorem likeMatch_percent_iff (ps s : List Char) :
    likeMatch ('%' :: ps) s = true ↔
      ∃ s1 s2, s = s1 ++ s2 ∧ likeMatch ps s2 = true := by
  rw [likeMatch_percent_step, List.any_eq_true]
  constructor
  · rintro ⟨x, hx, hm⟩
    obtain ⟨s1, hs1⟩ := (List.mem_tails x s).mp hx
    exact ⟨s1, x, hs1.symm, hm⟩
  · rintro ⟨s1, s2, heq, h⟩
    exact ⟨s2, (List.mem_tails s2 s).mpr ⟨s1, heq.symm⟩, h⟩

/-- A pattern free of metacharacters and of the escape character,
followed by `%`, matches a string iff the pattern is a prefix of the
string. -/
theorem likeMatch_literal_iff (t : List Char)
    (ht : ∀ c ∈ t, c ≠ '%' ∧ c ≠ '_' ∧ c ≠ '\\') (s : List Char) :
    likeMatch (t ++ ['%']) s = true ↔ ∃ s2, s = t ++ s2 := by
  induction t generalizing s with
  | nil =>
    simp only [List.nil_append]
    rw [likeMatch_percent_iff]
    constructor
    · intro _
      exact ⟨s, rfl⟩
    · intro _
      exact ⟨s, [], by simp, by simp [likeMatch]⟩
  | cons c t ih =>
    have hc := ht c (List.mem_cons_self c t)
    have hrest : ∀ x ∈ t, x ≠ '%' ∧ x ≠ '_' ∧ x ≠ '\\' :=
      fun x hx => ht x (List.mem_cons_of_mem c hx)
    cases s with
    | nil =>
      constructor
      · intro h
        exfalso
        rw [List.cons_append] at h
        unfold likeMatch at h
        rw [if_neg hc.2.2, if_neg hc.1] at h
        exact Bool.false_ne_true h
      · rintro ⟨s2, h⟩
        simp at h
    | cons a s =>
      have hstep : likeMatch ((c :: t) ++ ['%']) (a :: s) =
          (c == a && likeMatch (t ++ ['%']) s) := by
        rw [List.cons_append]
        conv_lhs => unfold likeMatch
        rw [if_neg hc.2.2, if_neg hc.1]
        simp only [if_neg hc.2.1]
      rw [hstep, Bool.and_eq_true, ih hrest]
      constructor
      · rintro ⟨hca, s2, hs⟩
        refine ⟨s2, ?_⟩
        rw [List.cons_append, ← hs, beq_iff_eq.mp hca]
      · rintro ⟨s2, hs⟩
        simp only [List.cons_append, List.cons.injEq] at hs
        exact ⟨beq_iff_eq.mpr hs.1.symm, s2, hs.2⟩

/-- For a term `t` free of metacharacters and of the escape character,
the pattern `%t%` matches a string iff `t` occurs in it as a contiguous
substring. -/
theorem likeMatch_infix_iff (t s : List Char)
    (ht : ∀ c ∈ t, c ≠ '%' ∧ c ≠ '_' ∧ c ≠ '\\') :
    likeMatch (('%' :: t) ++ ['%']) s = true ↔ t <:+: s := by
  rw [List.cons_append, likeMatch_percent_iff]
  constructor
  · rintro ⟨s1, s2, heq, h⟩
    obtain ⟨s3, hs3⟩ := (likeMatch_literal_iff t ht s2).mp h
    exact ⟨s1, s3, by rw [heq, hs3, List.append_assoc]⟩
  · rintro ⟨u, v, huv⟩
    exact ⟨u, t ++ v, by rw [← huv, List.append_assoc],
      (likeMatch_literal_iff t ht (t ++ v)).mpr ⟨v, rfl⟩⟩

/-- ASCII lowercasing maps no character onto a LIKE metacharacter or the
escape character other than itself. -/
theorem lowerChar_no_meta (a : Char) (h1 : a ≠ '%') (h2 : a ≠ '_')
    (h3 : a ≠ '\\') :
    lowerChar a ≠ '%' ∧ lowerChar a ≠ '_' ∧ lowerChar a ≠ '\\' := by
  unfold lowerChar
  cases hf : lowerPairs.find? (fun p => p.1 == a) with
  | none => simpa using ⟨h1, h2, h3⟩
  | some p =>
    have hall : ∀ x ∈ lowerPairs,
        x.2 ≠ '%' ∧ x.2 ≠ '_' ∧ x.2 ≠ '\\' := by decide
    simpa using hall p (List.mem_of_find?_eq_some hf)

/-- Lowercasing a term free of metacharacters and of the escape
character keeps it so. -/
theorem lowerStr_no_meta (q : String)
    (hq : ∀ c ∈ q.data, c ≠ '%' ∧ c ≠ '_' ∧ c ≠ '\\') :
    ∀ c ∈ lowerStr q, c ≠ '%' ∧ c ≠ '_' ∧ c ≠ '\\' := by
  intro c hc
  obtain ⟨a, ha, rfl⟩ := List.mem_map.mp hc
  exact lowerChar_no_meta a (hq a ha).1 (hq a ha).2.1 (hq a ha).2.2

/-- For a search term free of LIKE metacharacters and of the escape
character, the SQL row filter is exactly case-insensitive substring
containment over code and target URL. -/
theorem rowMatches_iff (q : String) (l : Link)
    (hq : ∀ c ∈ q.data, c ≠ '%' ∧ c ≠ '_' ∧ c ≠ '\\') :
    rowMatches q l = true ↔
      (lowerStr q <:+: lowerStr l.code ∨
        lowerStr q <:+: lowerStr l.target_url) := by
  unfold rowMatches searchPattern
  rw [Bool.or_eq_true, likeMatch_infix_iff _ _ (lowerStr_no_meta q hq),
    likeMatch_infix_iff _ _ (lowerStr_no_meta q hq)]

/-! Claim theorems. -/

/-- C1: the claim says a successful redirect increments the link's `clicks`
field by exactly 1 and sets `last_clicked_at`/`updated_at` to the redirect
time.  The redirect UPDATE in the source sets `clicks = clicks`: at a store
holding one link with 0 clicks the redirect succeeds (302 to the target,
`last_clicked_at` and `updated_at` set to the redirect time 7) while
`clicks` stays 0 rather than becoming 1 — contradicting the claim and the
handler's own comment (`src/index.js:168`, "increment clicks on visit"). -/
theorem c1_redirect_noop_clicks :
    redirectHandler "abc" 7 [l0] =
      (RedirectResult.redirect "http://example.com",
        [{ l0 with last_clicked_at := some 7, updated_at := 7 }]) ∧
    selectClicks "abc" (redirectHandler "abc" 7 [l0]).2 = some 0 ∧
    selectClicks "abc" (redirectHandler "abc" 7 [l0]).2 ≠ some (0 + 1) := by
  decide

/-- C2: the claim says N concurrent record-click invocations add exactly N
to `clicks` under every interleaving.  Refuting interleaving for N = 2 on
`POST /api/increment/:code` (each conjunct is one atomic query of
`src/index.js:203-233`): both requests run their SELECT against the initial
store and read 0, then both run their UPDATE writing 0 + 1; the final
counter is 1, not 0 + 2.  The redirect path is even further off: a
redirect leaves the counter at 0 (see C1), so N redirects add 0. -/
theorem c2_interleaved_increments_lose_update :
    selectClicks "abc" [l0] = some 0 ∧
    selectClicks "abc"
        ((updateClicksTo "abc" (0 + 1) 6
          (updateClicksTo "abc" (0 + 1) 5 [l0]).1).1) = some 1 ∧
    (1 : Nat) ≠ 0 + 2 ∧
    selectClicks "abc" (redirectHandler "abc" 7 [l0]).2 = some 0 := by
  decide

/-- C3: the claim says that among N concurrent creates requesting the same
custom code exactly one succeeds and the rest fail with CodeConflict,
because the existence check and the insert are indivisible.  In the source
they are two separate queries (`src/index.js:62-63` and `69-74`).
Refuting interleaving for N = 2 and custom code `X1`: request A runs its
check against the empty store (no hit) and completes, inserting its row;
request B's check also ran against the empty store (before A's insert), so
B proceeds and inserts as well.  Both requests succeed and the store ends
up with two rows for code `X1`. -/
theorem c3_interleaved_creates_both_succeed :
    (let ra := createLink
        { target_url := some (.jstr "http://a.example"), custom_code := some "X1" }
        0 0 0 3 1 []
     let rb := insertLink "X1" "http://b.example" 4 2 ra.2
     isCreated ra.1 = true ∧
     checkCode "X1" ([] : Store) = none ∧
     (rb.1.filter (fun l => l.code == "X1")).length = 2) := by
  decide

/-- C4 counterexample: the claim says that when the generated candidate
collides the service regenerates and retries up to a bound, failing only
then, with an AllocationExhausted kind.  In the source there is no retry:
with the generated candidate `generateShortCode 0 0 0 = "00000"` already in
use, the create call (no custom code) returns the CodeConflict outcome
immediately, leaving the store unchanged — the same 409 as a custom-code
conflict, and no AllocationExhausted kind exists in the handler at all. -/
theorem c4_counterexample :
    generateShortCode 0 0 0 = "00000" ∧
    createLink
        { target_url := some (.jstr "http://x.example"), custom_code := none }
        0 0 0 9 2 [lColl] = (.conflict, [lColl]) := by
  decide

/-- C4 amended: when the store reports a collision on the generated
candidate, creation fails immediately with CodeConflict (HTTP 409): there
is no retry, no regeneration, and no distinct AllocationExhausted error. -/
theorem c4_generated_conflict_fails_immediately (s : Store) (t : String)
    (b0 b1 b2 : Fin 256) (now newId : Nat)
    (ht : targetUrlOk (some (.jstr t)) = true)
    (hcoll : (checkCode (generateShortCode b0 b1 b2) s).isSome = true) :
    createLink { target_url := some (.jstr t), custom_code := none }
        b0 b1 b2 now newId s = (.conflict, s) := by
  obtain ⟨t2, heq, hne, hsw⟩ := targetOk_shape ht
  have ht2 : t2 = t := by simpa using heq.symm
  subst ht2
  simp only [createLink]
  rw [hne, hsw]
  simp only [Bool.or_false, Bool.not_true, Bool.or_self, Bool.false_eq_true,
    if_false]
  have hgen : chooseCode none b0 b1 b2 = generateShortCode b0 b1 b2 := rfl
  rw [hgen, genCode_format]
  simp only [Bool.not_true, Bool.false_eq_true, if_false]
  obtain ⟨i, hi⟩ := Option.isSome_iff_exists.mp hcoll
  rw [hi]

/-- C4 witness: a concrete instance of the amended claim. -/
theorem c4_witness :
    createLink
        { target_url := some (.jstr "http://w.example"), custom_code := none }
        171 205 0 11 3 [lCollB] = (.conflict, [lCollB]) :=
  c4_generated_conflict_fails_immediately [lCollB] "http://w.example"
    171 205 0 11 3 (by decide) (by decide)

/-- C5: with a link with code `X` already stored, a create call supplying
`custom_code = X` (well-formed per the data model's code format) and a
valid target url fails with CodeConflict and leaves the store — in
particular the existing record — unchanged. -/
theorem c5_custom_conflict_store_unchanged (s : Store) (X t : String)
    (b0 b1 b2 : Fin 256) (now newId : Nat)
    (hX : ∃ l ∈ s, l.code = X)
    (hfmt : codeFormatOk X = true)
    (ht : targetUrlOk (some (.jstr t)) = true) :
    createLink { target_url := some (.jstr t), custom_code := some X }
        b0 b1 b2 now newId s = (.conflict, s) := by
  obtain ⟨t2, heq, hne, hsw⟩ := targetOk_shape ht
  have ht2 : t2 = t := by simpa using heq.symm
  subst ht2
  have hXne : (X == "") = false := by
    cases hxe : X == "" with
    | false => rfl
    | true =>
      exfalso
      rw [beq_iff_eq.mp hxe] at hfmt
      exact absurd hfmt (by decide)
  simp only [createLink]
  rw [hne, hsw]
  simp only [Bool.or_false, Bool.not_true, Bool.or_self, Bool.false_eq_true,
    if_false]
  have hcc : chooseCode (some X) b0 b1 b2 = X := by
    simp only [chooseCode, hXne, Bool.false_eq_true, if_false]
  rw [hcc, hfmt]
  simp only [Bool.not_true, Bool.false_eq_true, if_false]
  obtain ⟨l, hl, hcode⟩ := hX
  have hfind : (s.find? (fun l => l.code == X)).isSome = true :=
    List.find?_isSome.mpr ⟨l, hl, beq_iff_eq.mpr hcode⟩
  obtain ⟨l2, hl2⟩ := Option.isSome_iff_exists.mp hfind
  have : checkCode X s = some l2.id := by
    simp [checkCode, hl2]
  rw [this]

/-- C5 witness: a concrete instance. -/
theorem c5_witness :
    createLink
        { target_url := some (.jstr "http://e.example"), custom_code := some "abc" }
        0 0 0 9 2 [l0] = (.conflict, [l0]) :=
  c5_custom_conflict_store_unchanged [l0] "abc" "http://e.example"
    0 0 0 9 2 (by decide) (by decide) (by decide)

/-- C6 counterexample: the claim says every custom_code violating the
1-8-character rule — which includes the empty string, of length 0 — makes
create fail with InvalidInput and write nothing.  In the source the empty
string is falsy, so `custom_code || generateShortCode()` replaces it with a
generated candidate: create with `custom_code = ""` succeeds with 201 and
inserts a row (code `"00000"` for oracle bytes 0 0 0). -/
theorem c6_counterexample :
    createLink
        { target_url := some (.jstr "http://e.example"), custom_code := some "" }
        0 0 0 3 1 [] =
      (.created { id := 1, code := "00000", target_url := "http://e.example",
                  clicks := 0, last_clicked_at := none, created_at := 3,
                  updated_at := 3 },
       [{ id := 1, code := "00000", target_url := "http://e.example",
          clicks := 0, last_clicked_at := none, created_at := 3,
          updated_at := 3 }]) ∧
    isCreated (createLink
        { target_url := some (.jstr "http://e.example"), custom_code := some "" }
        0 0 0 3 1 []).1 = true := by
  decide

/-- C6 amended: for every nonempty custom_code violating the format rule —
length above 8, or containing a character outside `[A-Za-z0-9]` — create
fails with a 400 InvalidInput outcome and no record is written (the empty
custom_code instead falls back to a generated candidate, see C10). -/
theorem c6_bad_nonempty_custom_rejected (body : CreateBody) (c : String)
    (b0 b1 b2 : Fin 256) (now newId : Nat) (s : Store)
    (hc : body.custom_code = some c) (hne : c ≠ "")
    (hbad : 8 < c.length ∨ ∃ ch ∈ c.data, isAlnumChar ch = false) :
    createLink body b0 b1 b2 now newId s = (.invalidUrl, s) ∨
    createLink body b0 b1 b2 now newId s = (.invalidCode, s) := by
  have hfmt : codeFormatOk c = false := by
    unfold codeFormatOk regexAlnumTest
    cases hbad with
    | inl h => simp [h]
    | inr h =>
      obtain ⟨ch, hmem, hch⟩ := h
      have hall : c.data.all isAlnumChar = false := by
        cases hall : c.data.all isAlnumChar with
        | false => rfl
        | true =>
          have := List.all_eq_true.mp hall ch hmem
          rw [hch] at this
          exact this.symm
      simp [hall]
  obtain ⟨tv, cc⟩ := body
  simp only at hc
  subst hc
  cases tv with
  | none => left; rfl
  | some w =>
    cases w with
    | jstr t =>
      simp only [createLink]
      cases hcond : (t == "" || !strStartsWith t "http") with
      | true => left; simp [hcond]
      | false =>
        right
        simp only [hcond, Bool.false_eq_true, if_false]
        have hcc : chooseCode (some c) b0 b1 b2 = c := by
          simp only [chooseCode, beq_eq_false_iff_ne.mpr hne,
            Bool.false_eq_true, if_false]
        rw [hcc, hfmt]
        rfl
    | jnum n => left; rfl
    | jbool b => left; rfl
    | jnull => left; rfl

/-- C6 witness: a concrete instance of the amended claim (a 12-character
custom code with a valid target). -/
theorem c6_witness :
    createLink
        { target_url := some (.jstr "http://f.example"),
          custom_code := some "waytoolong123" }
        0 0 0 3 1 [l0] = (.invalidUrl, [l0]) ∨
    createLink
        { target_url := some (.jstr "http://f.example"),
          custom_code := some "waytoolong123" }
        0 0 0 3 1 [l0] = (.invalidCode, [l0]) :=
  c6_bad_nonempty_custom_rejected
    { target_url := some (.jstr "http://f.example"),
      custom_code := some "waytoolong123" }
    "waytoolong123" 0 0 0 3 1 [l0] rfl (by decide) (by decide)

/-- C7: the target-url validation of create.  First part: whenever the
request body fails the guard — target absent, not a string, the empty
string, or a string not beginning with the HTTP scheme prefix `http` — the
handler answers 400 InvalidInput and writes nothing.  Second part: whenever
the target is a string beginning with `http` and the custom code is absent,
empty (falsy), or well-formed, validation passes: the outcome is never one
of the two 400 errors. -/
theorem c7_target_url_validation (body : CreateBody) (b0 b1 b2 : Fin 256)
    (now newId : Nat) (s : Store) :
    (targetUrlOk body.target_url = false →
      createLink body b0 b1 b2 now newId s = (.invalidUrl, s)) ∧
    (∀ t, body.target_url = some (.jstr t) →
      strStartsWith t "http" = true →
      (body.custom_code = none ∨ body.custom_code = some "" ∨
        (∃ c, body.custom_code = some c ∧ codeFormatOk c = true)) →
      (createLink body b0 b1 b2 now newId s).1 ≠ .invalidUrl ∧
      (createLink body b0 b1 b2 now newId s).1 ≠ .invalidCode) := by
  obtain ⟨tv, cc⟩ := body
  constructor
  · intro hbad
    cases tv with
    | none => rfl
    | some w =>
      cases w with
      | jstr t =>
        simp only [targetUrlOk, jsTruthy, Bool.and_eq_false_iff,
          Bool.not_eq_false'] at hbad
        simp only [createLink]
        cases hbad with
        | inl h => simp [h]
        | inr h => simp [h]
      | jnum n => rfl
      | jbool b => rfl
      | jnull => rfl
  · intro t heq hsw hcc
    simp only at heq
    subst heq
    have hne : (t == "") = false := by
      cases hte : t == "" with
      | false => rfl
      | true =>
        exfalso
        rw [beq_iff_eq.mp hte] at hsw
        exact absurd hsw (by decide)
    have hfmt : codeFormatOk (chooseCode cc b0 b1 b2) = true := by
      rcases hcc with h | h | ⟨c, h, hcf⟩
      · simp only at h; subst h; exact genCode_format b0 b1 b2
      · simp only at h; subst h
        simp only [chooseCode, if_pos rfl]
        exact genCode_format b0 b1 b2
      · simp only at h; subst h
        have hcne : (c == "") = false := by
          cases hce : c == "" with
          | false => rfl
          | true =>
            exfalso
            rw [beq_iff_eq.mp hce] at hcf
            exact absurd hcf (by decide)
        simp only [chooseCode, hcne, Bool.false_eq_true, if_false]
        exact hcf
    simp only [createLink, hne, hsw, Bool.not_true, Bool.or_self,
      Bool.false_eq_true, if_false, hfmt, Bool.not_true]
    cases hchk : checkCode (chooseCode cc b0 b1 b2) s with
    | none =>
      exact ⟨fun h => CreateResult.noConfusion h,
        fun h => CreateResult.noConfusion h⟩
    | some i =>
      exact ⟨fun h => CreateResult.noConfusion h,
        fun h => CreateResult.noConfusion h⟩

/-- C7 witness: concrete instances of both directions. -/
theorem c7_witness :
    createLink
        { target_url := some (.jstr "ftp://x.example"), custom_code := none }
        0 0 0 1 1 [] = (.invalidUrl, []) ∧
    (createLink
        { target_url := some (.jstr "http://x.example"), custom_code := none }
        0 0 0 1 1 []).1 ≠ .invalidUrl ∧
    (createLink
        { target_url := some (.jstr "http://x.example"), custom_code := none }
        0 0 0 1 1 []).1 ≠ .invalidCode := by
  refine ⟨?_, ?_⟩
  · exact (c7_target_url_validation
      { target_url := some (.jstr "ftp://x.example"), custom_code := none }
      0 0 0 1 1 []).1 (by decide)
  · exact (c7_target_url_validation
      { target_url := some (.jstr "http://x.example"), custom_code := none }
      0 0 0 1 1 []).2 "http://x.example" rfl (by decide) (Or.inl rfl)

/-- C8 counterexample: the claim says every create call without custom_code
on a valid target succeeds.  With the generated candidate
`generateShortCode 171 205 0 = "ABCD0"` already taken by a stored link, the
call returns CodeConflict instead of succeeding (there is no retry, see
C4). -/
theorem c8_counterexample :
    generateShortCode 171 205 0 = "ABCD0" ∧
    createLink
        { target_url := some (.jstr "http://y.example"), custom_code := none }
        171 205 0 4 7 [lCollB] = (.conflict, [lCollB]) ∧
    isCreated (createLink
        { target_url := some (.jstr "http://y.example"), custom_code := none }
        171 205 0 4 7 [lCollB]).1 = false := by
  decide

/-- C8 amended: for every valid target_url, a create call without
custom_code whose generated candidate is not already in use succeeds,
returns the generated code — which matches the 1-8 alphanumeric format
rule — and a subsequent get with that code on the resulting store returns
the inserted link, whose target_url is the one supplied at creation. -/
theorem c8_create_get_roundtrip (s : Store) (t : String) (b0 b1 b2 : Fin 256)
    (now newId : Nat)
    (ht : targetUrlOk (some (.jstr t)) = true)
    (hfresh : checkCode (generateShortCode b0 b1 b2) s = none) :
    createLink { target_url := some (.jstr t), custom_code := none }
        b0 b1 b2 now newId s =
      (.created (insertLink (generateShortCode b0 b1 b2) t now newId s).2,
        (insertLink (generateShortCode b0 b1 b2) t now newId s).1) ∧
    codeFormatOk (generateShortCode b0 b1 b2) = true ∧
    getLink (generateShortCode b0 b1 b2)
        (insertLink (generateShortCode b0 b1 b2) t now newId s).1 =
      .found (insertLink (generateShortCode b0 b1 b2) t now newId s).2 ∧
    (insertLink (generateShortCode b0 b1 b2) t now newId s).2.target_url
      = t := by
  obtain ⟨t2, heq, hne, hsw⟩ := targetOk_shape ht
  have ht2 : t2 = t := by simpa using heq.symm
  subst ht2
  refine ⟨?_, genCode_format b0 b1 b2, ?_, rfl⟩
  · simp only [createLink]
    rw [hne, hsw]
    simp only [Bool.or_false, Bool.not_true, Bool.or_self,
      Bool.false_eq_true, if_false]
    have hgen : chooseCode none b0 b1 b2 = generateShortCode b0 b1 b2 := rfl
    rw [hgen, genCode_format]
    simp only [Bool.not_true, Bool.false_eq_true, if_false]
    rw [hfresh]
  · have hfind :
        s.find? (fun l => l.code == generateShortCode b0 b1 b2) = none := by
      cases hf : s.find? (fun l => l.code == generateShortCode b0 b1 b2) with
      | none => rfl
      | some l =>
        exfalso
        have : checkCode (generateShortCode b0 b1 b2) s = some l.id := by
          simp [checkCode, hf]
        rw [hfresh] at this
        exact Option.noConfusion this
    simp only [getLink, insertLink]
    rw [find?_append_none hfind]
    simp [List.find?]

/-- C8 witness: a concrete instance of the amended claim
(`generateShortCode 7 250 33 = "07FA2"`). -/
theorem c8_witness :
    createLink
        { target_url := some (.jstr "http://z.example"),
          custom_code := none } 7 250 33 5 1 [] =
      (.created (insertLink (generateShortCode 7 250 33)
          "http://z.example" 5 1 []).2,
        (insertLink (generateShortCode 7 250 33) "http://z.example" 5 1 []).1) ∧
    codeFormatOk (generateShortCode 7 250 33) = true ∧
    getLink (generateShortCode 7 250 33)
        (insertLink (generateShortCode 7 250 33) "http://z.example" 5 1 []).1 =
      .found (insertLink (generateShortCode 7 250 33)
          "http://z.example" 5 1 []).2 ∧
    (insertLink (generateShortCode 7 250 33)
        "http://z.example" 5 1 []).2.target_url = "http://z.example" :=
  c8_create_get_roundtrip [] "http://z.example" 7 250 33 5 1
    (by decide) (by decide)

/-- C9 counterexample: the claim says the search returns exactly the links
whose code or target URL contains the term as a case-insensitive
substring.  The source interpolates the raw term into a LIKE pattern, so
LIKE metacharacters keep their wildcard meaning: searching for `a_c`
returns the stored link with code `abc` (the `_` matches `b`) even though
neither its code nor its URL contains `a_c` as a substring. -/
theorem c9_counterexample :
    listLinks (some "a_c") [l0] = [l0] ∧
    ¬ lowerStr "a_c" <:+: lowerStr l0.code ∧
    ¬ lowerStr "a_c" <:+: lowerStr l0.target_url := by
  refine ⟨by decide, by decide, ?_⟩
  decide

/-- C9 amended: list always returns the links ordered by `created_at`
descending; for a search term free of the SQL LIKE metacharacters `%` and
`_` and of the LIKE escape character `\\` it returns exactly the links
whose code or target URL contains the term as a case-insensitive
substring, in that same order (a term containing `%` or `_` is instead
interpreted as a LIKE wildcard pattern, and `\\` as the LIKE escape,
making the following character literal). -/
theorem c9_list_sorted_and_search (s : Store) (q : String)
    (hq : ∀ c ∈ q.data, c ≠ '%' ∧ c ≠ '_' ∧ c ≠ '\\') :
    List.Sorted createdDesc (listLinks none s) ∧
    List.Sorted createdDesc (listLinks (some q) s) ∧
    (∀ l, l ∈ listLinks none s ↔ l ∈ s) ∧
    (∀ l, l ∈ listLinks (some q) s ↔
      l ∈ s ∧ (lowerStr q <:+: lowerStr l.code ∨
        lowerStr q <:+: lowerStr l.target_url)) := by
  refine ⟨List.sorted_insertionSort createdDesc s, ?_, ?_, ?_⟩
  · by_cases hq0 : q = ""
    · simp [listLinks, hq0, List.sorted_insertionSort]
    · simp [listLinks, hq0, List.sorted_insertionSort]
  · intro l
    exact List.mem_insertionSort createdDesc
  · intro l
    by_cases hq0 : q = ""
    · subst hq0
      have hemp : lowerStr "" = [] := rfl
      simp [listLinks, List.mem_insertionSort, hemp, List.nil_infix]
    · simp only [listLinks, beq_eq_false_iff_ne.mpr hq0,
        Bool.false_eq_true, if_false]
      rw [List.mem_insertionSort, List.mem_filter, rowMatches_iff q l hq]

/-- C9 witness: a concrete instance of the amended claim (search term
`b`, matching the stored link by its code). -/
theorem c9_witness :
    List.Sorted createdDesc (listLinks (some "b") [l0]) ∧
    (l0 ∈ listLinks (some "b") [l0] ↔ l0 ∈ [l0] ∧
      (lowerStr "b" <:+: lowerStr l0.code ∨
        lowerStr "b" <:+: lowerStr l0.target_url)) :=
  ⟨(c9_list_sorted_and_search [l0] "b" (by decide)).2.1,
    (c9_list_sorted_and_search [l0] "b" (by decide)).2.2.2 l0⟩

/-- C10: a create request supplying `custom_code = ""` behaves exactly as
one supplying no custom code at all — the empty string is falsy, so
`custom_code || generateShortCode()` replaces it with the generated
candidate — and in particular it is never rejected with the 400
code-format error, since the generated candidate always passes the format
guard. -/
theorem c10_empty_custom_equals_absent (tv : Option JVal) (b0 b1 b2 : Fin 256)
    (now newId : Nat) (s : Store) :
    createLink { target_url := tv, custom_code := some "" } b0 b1 b2
        now newId s =
      createLink { target_url := tv, custom_code := none } b0 b1 b2
        now newId s ∧
    (createLink { target_url := tv, custom_code := some "" } b0 b1 b2
        now newId s).1 ≠ .invalidCode := by
  have hchoose : chooseCode (some "") b0 b1 b2 = chooseCode none b0 b1 b2 :=
    rfl
  constructor
  · cases tv with
    | none => rfl
    | some w =>
      cases w with
      | jstr t => simp only [createLink, hchoose]
      | jnum n => rfl
      | jbool b => rfl
      | jnull => rfl
  · cases tv with
    | none => exact fun h => CreateResult.noConfusion h
    | some w =>
      cases w with
      | jstr t =>
        simp only [createLink]
        cases hcond : (t == "" || !strStartsWith t "http") with
        | true =>
          simp only [if_pos rfl]
          exact fun h => CreateResult.noConfusion h
        | false =>
          simp only [Bool.false_eq_true, if_false]
          have hgen : chooseCode (some "") b0 b1 b2 =
              generateShortCode b0 b1 b2 := rfl
          rw [hgen, genCode_format]
          simp only [Bool.not_true, Bool.false_eq_true, if_false]
          cases hchk : checkCode (generateShortCode b0 b1 b2) s with
          | none => exact fun h => CreateResult.noConfusion h
          | some i => exact fun h => CreateResult.noConfusion h
      | jnum n => exact fun h => CreateResult.noConfusion h
      | jbool b => exact fun h => CreateResult.noConfusion h
      | jnull => exact fun h => CreateResult.noConfusion h

end ShortLink
